import Mathlib

/- Verification development for the chesshook2 puzzle-solver core.
   The definitions below are a shallow embedding of the Go source:
   the strategy/account data model and persistence shapes (types.go),
   the per-account run loop and orchestrator (main.go: processAccount,
   runSolver), the attempt-duration draw inside submitSolution (api.go),
   the outcome aggregation (runSolver), and the live status logger
   (logger.go).  Time is modelled as an integer count of seconds, with
   0 standing for Go's zero time.Time value (the only operations the
   code performs on times are IsZero, Since and Add, so an abstract
   linear clock is faithful); the pseudo-random draw of rand.Float64
   is modelled as an explicit rational parameter u with 0 <= u < 1;
   remote HTTP calls are modelled by an oracle giving each session's
   outcome and by an explicit trace of the calls issued. -/

namespace Chesshook

/-- StopModeType constant StopModeRating = "stop_at_rating" (types.go). -/
def StopModeRating : String := "stop_at_rating"

/-- StopModeType constant StopModePuzzles = "stop_at_puzzles_completed" (types.go). -/
def StopModePuzzles : String := "stop_at_puzzles_completed"

/-- TimeModeType constant TimeModeLegit = "legit" (types.go). -/
def TimeModeLegit : String := "legit"

/-- TimeModeType constant TimeModeHour = "hour" (types.go). -/
def TimeModeHour : String := "hour"

/-- TimeModeType constant TimeModeZero = "zero" (types.go). -/
def TimeModeZero : String := "zero"

/-- SubmitModeType constant SubmitModeASAP = "asap" (types.go). -/
def SubmitModeASAP : String := "asap"

/-- SubmitModeType constant SubmitModeLegit = "legit" (types.go). -/
def SubmitModeLegit : String := "legit"

/-- Strategy record (types.go).  The mode fields are string-typed in the
source (StopModeType etc. are string aliases), so they stay strings here. -/
structure Strategy where
  name : String
  stopMode : String
  puzzlesPerDay : Int
  targetRating : Int
  timeMode : String
  submitMode : String
deriving Repr, DecidableEq

/-- Account record (types.go).  Timestamps are integer seconds; 0 models
Go's zero time.Time (time.Time.IsZero). -/
structure Account where
  username : String
  cookie : String
  isPremium : Bool
  strategyName : String
  premiumExpiry : Int
  lastRun : Int
  lastRating : Int
deriving Repr, DecidableEq

/-- ProcessResult record (main.go).  The error value is modelled as an
optional message string (Go error values are compared against nil and
inspected through their message text by the code). -/
structure ProcessResult where
  accountUsername : String
  puzzlesSolved : Nat
  strategy : Option Strategy
  error : Option String
deriving Repr, DecidableEq

/-- Outcome of one remote puzzle session attempt (solvePuzzleForAccount):
the fetch can fail, the submit can fail, or the session succeeds with a
new rating and a reported time-taken value. -/
inductive SessionOutcome where
  | fetchFail (msg : String)
  | submitFail (msg : String)
  | ok (ratingAfter : Int) (timeTaken : ℚ)
deriving Repr, DecidableEq

/-- Remote HTTP requests issued by processAccount and its callees, as trace
events: tactics-stats lookups, the puzzle fetch, the solution submission,
and the completion webhook. -/
inductive RemoteCall where
  | getStats
  | fetchPuzzle
  | submitSol
  | webhook
deriving Repr, DecidableEq

/-- Result of the inner solving loop of processAccount: the solved count,
the last seen rating, the terminal error (none on a stop-predicate exit),
the remote calls issued by the loop, and the real sleeps performed
(in seconds) between puzzles. -/
structure LoopOut where
  solvedCount : Nat
  lastRating : Int
  finalError : Option String
  calls : List RemoteCall
  sleeps : List ℚ
deriving Repr, DecidableEq

/-- Truncation of a rational toward zero, modelling Go's conversion of a
float64 to an integer type (time.Duration(solvedPuzzle.TimeTaken)). -/
def ratTrunc (q : ℚ) : Int :=
  if 0 ≤ q.num then ((q.num.toNat / q.den : Nat) : Int)
  else -(((((-q.num).toNat) / q.den : Nat) : Int))

/-- Map lookup on an association list, modelling strategies[name]
(Go map access in processAccount). -/
def lookupStrategy (strategies : List (String × Strategy)) (name : String) : Option Strategy :=
  match strategies.find? (fun p => p.1 == name) with
  | some p => some p.2
  | none => none

/-- Stop predicate evaluated after a successful session (processAccount):
switch strategy.StopMode with the puzzle-count case and the rating case;
an unrecognized stop mode leaves shouldStop false. -/
def shouldStopAfter (strategy : Strategy) (solvedCount : Nat) (lastRating : Int) : Bool :=
  if strategy.stopMode == StopModePuzzles then
    decide (strategy.puzzlesPerDay > 0 ∧ (solvedCount : Int) ≥ strategy.puzzlesPerDay)
  else if strategy.stopMode == StopModeRating then
    decide (strategy.targetRating > 0 ∧ lastRating ≥ strategy.targetRating)
  else false

/-- Inner solving loop of processAccount (for !shouldStop { ... }), with an
explicit fuel bound on the number of sessions: none means the loop did not
exit within fuel sessions.  Each iteration runs one session (oracle idx):
a stats lookup, the puzzle fetch, and on fetch success the submission, as
in solvePuzzleForAccount.  On session failure the loop exits with that
error, keeping the count; on success it increments solvedCount, takes the
new rating, evaluates the stop predicate, and when not stopping and the
submit mode is not ASAP it sleeps for
time.Duration(solvedPuzzle.TimeTaken) * time.Second, i.e. the reported
time truncated to whole seconds. -/
def runLoopAux (strategy : Strategy) (oracle : Nat → SessionOutcome) :
    Nat → Nat → Int → Nat → Option LoopOut
  | _, _, _, 0 => none
  | idx, solvedCount, lastRating, fuel + 1 =>
    match oracle idx with
    | SessionOutcome.fetchFail msg =>
        some ⟨solvedCount, lastRating, some msg,
          [RemoteCall.getStats, RemoteCall.fetchPuzzle], []⟩
    | SessionOutcome.submitFail msg =>
        some ⟨solvedCount, lastRating, some msg,
          [RemoteCall.getStats, RemoteCall.fetchPuzzle, RemoteCall.submitSol], []⟩
    | SessionOutcome.ok ratingAfter timeTaken =>
        let solvedCount' := solvedCount + 1
        let lastRating' := ratingAfter
        let stopNow := shouldStopAfter strategy solvedCount' lastRating'
        if stopNow then
          some ⟨solvedCount', lastRating', none,
            [RemoteCall.getStats, RemoteCall.fetchPuzzle, RemoteCall.submitSol], []⟩
        else
          let sleeps : List ℚ :=
            if strategy.submitMode ≠ SubmitModeASAP then [((ratTrunc timeTaken : Int) : ℚ)]
            else []
          match runLoopAux strategy oracle (idx + 1) solvedCount' lastRating' fuel with
          | none => none
          | some out =>
              some ⟨out.solvedCount, out.lastRating, out.finalError,
                [RemoteCall.getStats, RemoteCall.fetchPuzzle, RemoteCall.submitSol] ++ out.calls,
                sleeps ++ out.sleeps⟩

/-- Cooldown window length: 24 hours in seconds (24*time.Hour). -/
def cooldownSeconds : Int := 86400

/-- Cooldown gate of processAccount:
!account.LastRun.IsZero() && time.Since(account.LastRun) < 24*time.Hour
&& !account.IsPremium. -/
def onCooldown (now : Int) (account : Account) : Bool :=
  (!(account.lastRun == 0))
    && decide (now - account.lastRun < cooldownSeconds)
    && (!account.isPremium)

/-- Cooldown error message built by processAccount
("on cooldown until %s" with the deadline LastRun + 24h). -/
def cooldownMsg (lastRun : Int) : String :=
  "on cooldown until " ++ toString (lastRun + cooldownSeconds)

/-- Strategy-not-found error message built by processAccount
("strategy not found: %s"). -/
def strategyNotFoundMsg (name : String) : String :=
  "strategy not found: " ++ name

/-- Per-account run of processAccount (main.go), with fuel bounding the
inner loop; returns the account value after the run (the worker's final
copy), the ProcessResult sent on the results channel, and the trace of
remote calls issued.  Order follows the source: strategy lookup (early
return with no remote calls on failure); initial getTacticsStats; the
cooldown gate; otherwise the solving loop followed by the LastRun update
guarded by strategy.PuzzlesPerDay > 0 && finalError == nil; finally the
closing getTacticsStats and the completion webhook. -/
def processAccount (now : Int) (account : Account)
    (strategies : List (String × Strategy)) (oracle : Nat → SessionOutcome)
    (fuel : Nat) : Option (Account × ProcessResult × List RemoteCall) :=
  match lookupStrategy strategies account.strategyName with
  | none =>
      some (account,
        { accountUsername := account.username, puzzlesSolved := 0,
          strategy := none, error := some (strategyNotFoundMsg account.strategyName) },
        [])
  | some strategy =>
      if onCooldown now account then
        some (account,
          { accountUsername := account.username, puzzlesSolved := 0,
            strategy := some strategy, error := some (cooldownMsg account.lastRun) },
          [RemoteCall.getStats, RemoteCall.getStats, RemoteCall.webhook])
      else
        match runLoopAux strategy oracle 0 0 0 fuel with
        | none => none
        | some out =>
            let account' :=
              if strategy.puzzlesPerDay > 0 ∧ out.finalError = none then
                { account with lastRun := now }
              else account
            some (account',
              { accountUsername := account.username, puzzlesSolved := out.solvedCount,
                strategy := some strategy, error := out.finalError },
              RemoteCall.getStats ::
                (out.calls ++ [RemoteCall.getStats, RemoteCall.webhook]))

/-- Worker outputs of runSolver, in store order: each account is processed
on its own copy, yielding the worker's final account value and its
ProcessResult; none if some account's loop did not exit within fuel. -/
def workerOutputs (now : Int) (db : List (String × Account))
    (strategies : List (String × Strategy)) (oracles : String → Nat → SessionOutcome)
    (fuel : Nat) : Option (List (String × Account × ProcessResult)) :=
  match db with
  | [] => some []
  | (name, account) :: rest =>
      match processAccount now account strategies (oracles name) fuel,
            workerOutputs now rest strategies oracles fuel with
      | some (account', result, _), some tail => some ((name, account', result) :: tail)
      | _, _ => none

/-- Orchestrator runSolver (main.go), restricted to its store handling:
every account's run is executed on a private copy of the account value,
the ProcessResults are collected from the channel, and the database is
persisted with saveDatabase — the source never copies the workers' final
account values back into db.Accounts, so the persisted store is the
loaded store db unchanged. -/
def runSolver (now : Int) (db : List (String × Account))
    (strategies : List (String × Strategy)) (oracles : String → Nat → SessionOutcome)
    (fuel : Nat) : Option (List (String × Account) × List ProcessResult) :=
  match workerOutputs now db strategies oracles fuel with
  | none => none
  | some outs => some (db, outs.map (fun p => p.2.2))

/-- Final worker copies of the accounts after their run loops, in store
order: the account values processAccount leaves behind (the state the
spec says is written back into the store). -/
def finalWorkerCopies (now : Int) (db : List (String × Account))
    (strategies : List (String × Strategy)) (oracles : String → Nat → SessionOutcome)
    (fuel : Nat) : Option (List (String × Account)) :=
  match workerOutputs now db strategies oracles fuel with
  | none => none
  | some outs => some (outs.map (fun p => (p.1, p.2.1)))

/-- Attempt-duration draw inside submitSolution (api.go): a switch on
strategy.TimeMode, with u modelling the rand.Float64() draw in [0,1). -/
def attemptDuration (timeMode : String) (u : ℚ) : ℚ :=
  if timeMode == TimeModeHour then 3600 + u * 1800
  else if timeMode == TimeModeLegit then 15 + u * 30
  else if timeMode == TimeModeZero then 1 / 10 + u * (3 / 10)
  else 15

/-- Prefix test on character lists (helper for the substring match the
source performs with strings.Contains). -/
def listIsPre : List Char → List Char → Bool
  | [], _ => true
  | _ :: _, [] => false
  | a :: as, b :: bs => a == b && listIsPre as bs

/-- Substring test on character lists: pat occurs somewhere in l. -/
def listContainsSub (pat : List Char) : List Char → Bool
  | [] => listIsPre pat []
  | c :: rest => listIsPre pat (c :: rest) || listContainsSub pat rest

/-- Substring test on strings, modelling strings.Contains(s, pat). -/
def strContainsSub (s pat : String) : Bool :=
  listContainsSub pat.data s.data

/-- Success-bucket entry formatting in runSolver's aggregation:
"user (n/m puzzles)" when the result carries its strategy,
"user (n puzzles)" otherwise. -/
def successEntry (r : ProcessResult) : String :=
  match r.strategy with
  | some strat =>
      r.accountUsername ++ " (" ++ toString r.puzzlesSolved ++ "/"
        ++ toString strat.puzzlesPerDay ++ " puzzles)"
  | none =>
      r.accountUsername ++ " (" ++ toString r.puzzlesSolved ++ " puzzles)"

/-- Aggregation loop of runSolver over the collected results, carrying the
three accumulators (successfulAccounts, cooldownAccounts, errorAccounts)
and appending as the source does: a nil error goes to success; an error
whose text contains "cooldown" goes to the cooldown bucket; any other
error goes to the error bucket. -/
def aggregateAux : List ProcessResult → List String × List String × List String →
    List String × List String × List String
  | [], acc => acc
  | r :: rs, (succ, cool, errs) =>
      match r.error with
      | some e =>
          if strContainsSub e ("cooldown") then
            aggregateAux rs (succ, cool ++ [r.accountUsername], errs)
          else
            aggregateAux rs (succ, cool, errs ++ [r.accountUsername])
      | none => aggregateAux rs (succ ++ [successEntry r], cool, errs)

/-- Aggregation of runSolver starting from three empty buckets. -/
def aggregateResults (rs : List ProcessResult) :
    List String × List String × List String :=
  aggregateAux rs ([], [], [])

/-- Classification predicate: the result has a nil error. -/
def isSuccessRes (r : ProcessResult) : Bool :=
  match r.error with
  | none => true
  | some _ => false

/-- Classification predicate: the result's error text contains "cooldown". -/
def isCooldownRes (r : ProcessResult) : Bool :=
  match r.error with
  | none => false
  | some e => strContainsSub e ("cooldown")

/-- Classification predicate: the result has a non-nil error whose text
does not contain "cooldown". -/
def isHardErrorRes (r : ProcessResult) : Bool :=
  match r.error with
  | none => false
  | some e => !strContainsSub e ("cooldown")

/-- Live status logger state (logger.go): the line values keyed by line
key (the persistentLines map, modelled as an association list) and the
ordered key list recording first-insertion order. -/
structure Logger where
  persistentLines : List (String × String)
  orderedKeys : List String
deriving Repr, DecidableEq

/-- NewLogger: empty map, empty key order. -/
def Logger.new : Logger := ⟨[], []⟩

/-- Map read persistentLines[key] on the association-list model. -/
def lookupLine (lines : List (String × String)) (key : String) : Option String :=
  match lines.find? (fun p => p.1 == key) with
  | some p => some p.2
  | none => none

/-- Map write persistentLines[key] = value on the association-list model:
replace the value if the key is present, insert it otherwise. -/
def setLine : List (String × String) → String → String → List (String × String)
  | [], key, value => [(key, value)]
  | (k, v) :: rest, key, value =>
      if k == key then (k, value) :: rest else (k, v) :: setLine rest key value

/-- Map delete delete(persistentLines, key) on the association-list model. -/
def removeLineEntry : List (String × String) → String → List (String × String)
  | [], _ => []
  | (k, v) :: rest, key =>
      if k == key then removeLineEntry rest key else (k, v) :: removeLineEntry rest key

/-- Removal of the first occurrence of key in orderedKeys (the RemoveLine
loop breaks after the first match). -/
def removeKeyOnce : List String → String → List String
  | [], _ => []
  | k :: rest, key => if k == key then rest else k :: removeKeyOnce rest key

/-- Logger.AddLine: append the key to orderedKeys when it is not yet in
the map, then set its value. -/
def Logger.addLine (l : Logger) (key value : String) : Logger :=
  let orderedKeys :=
    match lookupLine l.persistentLines key with
    | none => l.orderedKeys ++ [key]
    | some _ => l.orderedKeys
  { persistentLines := setLine l.persistentLines key value, orderedKeys := orderedKeys }

/-- Logger.RemoveLine: delete the key from the map and drop its first
occurrence from orderedKeys. -/
def Logger.removeLine (l : Logger) (key : String) : Logger :=
  { persistentLines := removeLineEntry l.persistentLines key,
    orderedKeys := removeKeyOnce l.orderedKeys key }

/-- Render of Logger.updateDisplay: one line per ordered key, printing
persistentLines[key] (a missing key prints the empty string, as a Go map
read of an absent key yields the zero value). -/
def Logger.render (l : Logger) : List String :=
  l.orderedKeys.map (fun k => (lookupLine l.persistentLines k).getD "")

/-- Rating component of a session outcome (0 for failures). -/
def oracleRating (oracle : Nat → SessionOutcome) (n : Nat) : Int :=
  match oracle n with
  | SessionOutcome.ok rating _ => rating
  | _ => 0

/-- Reported-time component of a session outcome (0 for failures). -/
def oracleTime (oracle : Nat → SessionOutcome) (n : Nat) : ℚ :=
  match oracle n with
  | SessionOutcome.ok _ t => t
  | _ => 0

/-- Default strategy shipped in strategies.json: stop after 3 puzzles,
target rating 4000, legit timing, paced submission (loadStrategies);
specialised here to a count target of 1 for the concrete runs below. -/
def stratDefault : Strategy :=
  ⟨"default", StopModePuzzles, 1, 4000, TimeModeLegit, SubmitModeLegit⟩

/-- Concrete fresh non-premium account (zero LastRun). -/
def acctFresh : Account := ⟨"alice", "ck", false, "default", 0, 0, 0⟩

/-- Concrete strategy for the cooldown-gate runs. -/
def stratGate : Strategy := ⟨"s1", StopModePuzzles, 1, 0, TimeModeLegit, SubmitModeLegit⟩

/-- Concrete non-premium account whose last run was one hour ago
(now = 86400, lastRun = 82800). -/
def acctGate : Account := ⟨"bob", "ck", false, "s1", 0, 82800, 0⟩

/-- Concrete premium account whose last run was recent. -/
def acctPremium : Account := ⟨"carol", "ck", true, "s1", 0, 86000, 0⟩

/-- Concrete paced strategy with a count target of 2. -/
def stratPaced : Strategy := ⟨"s7", StopModePuzzles, 2, 0, TimeModeLegit, SubmitModeLegit⟩

/-- Concrete oracle whose first session reports the fractional time 15.5 s. -/
def oracleHalf : Nat → SessionOutcome
  | 0 => SessionOutcome.ok 100 (mkRat 31 2)
  | _ + 1 => SessionOutcome.ok 100 20

/-- Unfolding equation for the solving loop at fuel 0. -/
lemma runLoopAux_zero (strategy : Strategy) (oracle : Nat → SessionOutcome)
    (idx solved : Nat) (r : Int) :
    runLoopAux strategy oracle idx solved r 0 = none := rfl

/-- Unfolding equation for the solving loop on a successful session. -/
lemma runLoopAux_succ_ok (strategy : Strategy) (oracle : Nat → SessionOutcome)
    (idx solved : Nat) (r : Int) (fuel : Nat) (rating : Int) (t : ℚ)
    (h : oracle idx = SessionOutcome.ok rating t) :
    runLoopAux strategy oracle idx solved r (fuel + 1) =
      (if shouldStopAfter strategy (solved + 1) rating then
        some ⟨solved + 1, rating, none,
          [RemoteCall.getStats, RemoteCall.fetchPuzzle, RemoteCall.submitSol], []⟩
      else
        match runLoopAux strategy oracle (idx + 1) (solved + 1) rating fuel with
        | none => none
        | some out =>
            some ⟨out.solvedCount, out.lastRating, out.finalError,
              [RemoteCall.getStats, RemoteCall.fetchPuzzle, RemoteCall.submitSol] ++ out.calls,
              (if strategy.submitMode ≠ SubmitModeASAP then [((ratTrunc t : Int) : ℚ)]
                else []) ++ out.sleeps⟩) := by
  simp only [runLoopAux]
  rw [h]

/-- Stop predicate in puzzle-count mode. -/
lemma shouldStopAfter_puzzles_eq (strategy : Strategy)
    (hmode : strategy.stopMode = StopModePuzzles) (solved : Nat) (r : Int) :
    shouldStopAfter strategy solved r
      = decide (strategy.puzzlesPerDay > 0 ∧ (solved : Int) ≥ strategy.puzzlesPerDay) := by
  have h1 : (StopModePuzzles == StopModePuzzles) = true := by decide
  simp [shouldStopAfter, hmode, h1]

/-- Stop predicate in target-rating mode. -/
lemma shouldStopAfter_rating_eq (strategy : Strategy)
    (hmode : strategy.stopMode = StopModeRating) (solved : Nat) (r : Int) :
    shouldStopAfter strategy solved r
      = decide (strategy.targetRating > 0 ∧ r ≥ strategy.targetRating) := by
  have h1 : (StopModeRating == StopModePuzzles) = false := by decide
  have h2 : (StopModeRating == StopModeRating) = true := by decide
  simp [shouldStopAfter, hmode, h1, h2]

/-- Main lemma for puzzle-count mode: when every session succeeds and the
count target is C, the loop run from a solved count below C finishes with
exactly C solved, no error, one puzzle fetch per remaining session, and
(when paced) one truncated-seconds sleep per non-final remaining session. -/
lemma runLoop_puzzles_main (strategy : Strategy) (oracle : Nat → SessionOutcome)
    (ratings : Nat → Int) (times : Nat → ℚ)
    (hmode : strategy.stopMode = StopModePuzzles) (C : Nat)
    (hC : strategy.puzzlesPerDay = (C : Int))
    (hok : ∀ n, oracle n = SessionOutcome.ok (ratings n) (times n)) :
    ∀ fuel idx solved r, solved < C → C - solved ≤ fuel →
      ∃ out, runLoopAux strategy oracle idx solved r fuel = some out ∧
        out.solvedCount = C ∧ out.finalError = none ∧
        out.calls.count RemoteCall.fetchPuzzle = C - solved ∧
        out.sleeps = (if strategy.submitMode = SubmitModeASAP then []
          else (List.range (C - solved - 1)).map
            fun i => ((ratTrunc (times (idx + i)) : Int) : ℚ)) := by
  intro fuel
  induction fuel with
  | zero => intro idx solved r hlt hle; omega
  | succ fuel ih =>
    intro idx solved r hlt hle
    rw [runLoopAux_succ_ok strategy oracle idx solved r fuel _ _ (hok idx),
      shouldStopAfter_puzzles_eq strategy hmode]
    by_cases hstop : solved + 1 = C
    · have hdec : decide (strategy.puzzlesPerDay > 0
          ∧ ((solved + 1 : Nat) : Int) ≥ strategy.puzzlesPerDay) = true := by
        rw [hC, decide_eq_true_eq]
        have hCpos : 0 < C := by omega
        exact ⟨by exact_mod_cast hCpos, by exact_mod_cast Nat.le_of_eq hstop.symm⟩
      rw [hdec, if_pos rfl]
      refine ⟨_, rfl, hstop, rfl, ?_, ?_⟩
      · have h1 : C - solved = 1 := by omega
        rw [h1]
        rfl
      · have h0 : C - solved - 1 = 0 := by omega
        rw [h0]
        by_cases hasap : strategy.submitMode = SubmitModeASAP
        · rw [if_pos hasap]
        · rw [if_neg hasap]
          simp
    · have hlt' : solved + 1 < C := by omega
      have hdec : decide (strategy.puzzlesPerDay > 0
          ∧ ((solved + 1 : Nat) : Int) ≥ strategy.puzzlesPerDay) = false := by
        rw [hC, decide_eq_false_iff_not]
        rintro ⟨-, hge⟩
        have : C ≤ solved + 1 := by exact_mod_cast hge
        omega
      rw [hdec]
      simp only [Bool.false_eq_true, if_false]
      obtain ⟨out, hout, hcount, herr, hfetch, hsleeps⟩ :=
        ih (idx + 1) (solved + 1) (ratings idx) hlt' (by omega)
      rw [hout]
      refine ⟨_, rfl, hcount, herr, ?_, ?_⟩
      · rw [List.count_append, hfetch]
        have h1 : ([RemoteCall.getStats, RemoteCall.fetchPuzzle,
            RemoteCall.submitSol] : List RemoteCall).count RemoteCall.fetchPuzzle = 1 := by
          decide
        rw [h1]
        omega
      · by_cases hasap : strategy.submitMode = SubmitModeASAP
        · rw [if_pos hasap] at hsleeps ⊢
          rw [if_neg (fun h => h hasap), hsleeps]
          rfl
        · rw [if_neg hasap] at hsleeps ⊢
          rw [if_pos hasap, hsleeps]
          have hrange : C - solved - 1 = (C - (solved + 1) - 1) + 1 := by omega
          rw [hrange, List.range_succ_eq_map, List.map_cons, List.map_map]
          refine congrArg₂ List.cons (by rw [Nat.add_zero]) ?_
          apply List.map_congr_left
          intro i _
          show ((ratTrunc (times ((idx + 1) + i)) : Int) : ℚ)
            = ((ratTrunc (times (idx + (i + 1))) : Int) : ℚ)
          have harg : (idx + 1) + i = idx + (i + 1) := by omega
          rw [harg]

/-- Under-fuelled run in puzzle-count mode: with every session succeeding
and more than fuel sessions still needed, the loop does not exit. -/
lemma runLoop_puzzles_needsFuel (strategy : Strategy) (oracle : Nat → SessionOutcome)
    (ratings : Nat → Int) (times : Nat → ℚ)
    (hmode : strategy.stopMode = StopModePuzzles) (C : Nat)
    (hC : strategy.puzzlesPerDay = (C : Int))
    (hok : ∀ n, oracle n = SessionOutcome.ok (ratings n) (times n)) :
    ∀ fuel idx solved r, fuel < C - solved →
      runLoopAux strategy oracle idx solved r fuel = none := by
  intro fuel
  induction fuel with
  | zero => intro idx solved r _; rfl
  | succ fuel ih =>
    intro idx solved r hfuel
    rw [runLoopAux_succ_ok strategy oracle idx solved r fuel _ _ (hok idx),
      shouldStopAfter_puzzles_eq strategy hmode]
    have hdec : decide (strategy.puzzlesPerDay > 0
        ∧ ((solved + 1 : Nat) : Int) ≥ strategy.puzzlesPerDay) = false := by
      rw [hC, decide_eq_false_iff_not]
      rintro ⟨-, hge⟩
      have : C ≤ solved + 1 := by exact_mod_cast hge
      omega
    rw [hdec]
    simp only [Bool.false_eq_true, if_false]
    rw [ih (idx + 1) (solved + 1) (ratings idx) (by omega)]

/-- Target-rating mode, stop at the first threshold session: if the next k
sessions stay below the positive target and the one after reaches it, the
loop exits right there with no error, having run exactly k + 1 sessions. -/
lemma runLoop_rating_stop (strategy : Strategy) (oracle : Nat → SessionOutcome)
    (ratings : Nat → Int) (times : Nat → ℚ)
    (hmode : strategy.stopMode = StopModeRating)
    (hok : ∀ n, oracle n = SessionOutcome.ok (ratings n) (times n))
    (hR : strategy.targetRating > 0) :
    ∀ k idx solved r fuel,
      (∀ i, i < k → ratings (idx + i) < strategy.targetRating) →
      strategy.targetRating ≤ ratings (idx + k) →
      k + 1 ≤ fuel →
      ∃ out, runLoopAux strategy oracle idx solved r fuel = some out ∧
        out.solvedCount = solved + (k + 1) ∧ out.finalError = none ∧
        out.calls.count RemoteCall.fetchPuzzle = k + 1 := by
  intro k
  induction k with
  | zero =>
    intro idx solved r fuel _ hhit hfuel
    obtain ⟨fuel, rfl⟩ : ∃ f, fuel = f + 1 := ⟨fuel - 1, by omega⟩
    rw [runLoopAux_succ_ok strategy oracle idx solved r fuel _ _ (hok idx),
      shouldStopAfter_rating_eq strategy hmode]
    have hdec : decide (strategy.targetRating > 0
        ∧ ratings idx ≥ strategy.targetRating) = true := by
      rw [decide_eq_true_eq]
      exact ⟨hR, by simpa using hhit⟩
    rw [hdec, if_pos rfl]
    exact ⟨_, rfl, rfl, rfl, rfl⟩
  | succ k ih =>
    intro idx solved r fuel hbelow hhit hfuel
    obtain ⟨fuel, rfl⟩ : ∃ f, fuel = f + 1 := ⟨fuel - 1, by omega⟩
    rw [runLoopAux_succ_ok strategy oracle idx solved r fuel _ _ (hok idx),
      shouldStopAfter_rating_eq strategy hmode]
    have hdec : decide (strategy.targetRating > 0
        ∧ ratings idx ≥ strategy.targetRating) = false := by
      rw [decide_eq_false_iff_not]
      rintro ⟨-, hge⟩
      have h0 : ratings (idx + 0) < strategy.targetRating := hbelow 0 (by omega)
      simp only [Nat.add_zero] at h0
      omega
    rw [hdec]
    simp only [Bool.false_eq_true, if_false]
    obtain ⟨out, hout, hcount, herr, hfetch⟩ :=
      ih (idx + 1) (solved + 1) (ratings idx) fuel
        (fun i hi => by
          have := hbelow (i + 1) (by omega)
          simpa [Nat.add_assoc, Nat.add_comm 1 i] using this)
        (by
          have : idx + (k + 1) = (idx + 1) + k := by omega
          rwa [this] at hhit)
        (by omega)
    rw [hout]
    refine ⟨_, rfl, ?_, herr, ?_⟩
    · show out.solvedCount = solved + (k + 1 + 1)
      omega
    · show ([RemoteCall.getStats, RemoteCall.fetchPuzzle, RemoteCall.submitSol]
          ++ out.calls).count RemoteCall.fetchPuzzle = k + 1 + 1
      rw [List.count_append, hfetch]
      have h1 : List.count RemoteCall.fetchPuzzle
          [RemoteCall.getStats, RemoteCall.fetchPuzzle, RemoteCall.submitSol] = 1 := rfl
      omega

/-- Target-rating mode with a target of 0 or less: the rating predicate
never fires, so an all-success run never exits the loop. -/
lemma runLoop_rating_noStop (strategy : Strategy) (oracle : Nat → SessionOutcome)
    (ratings : Nat → Int) (times : Nat → ℚ)
    (hmode : strategy.stopMode = StopModeRating)
    (hok : ∀ n, oracle n = SessionOutcome.ok (ratings n) (times n))
    (hR : strategy.targetRating ≤ 0) :
    ∀ fuel idx solved r, runLoopAux strategy oracle idx solved r fuel = none := by
  intro fuel
  induction fuel with
  | zero => intro idx solved r; rfl
  | succ fuel ih =>
    intro idx solved r
    rw [runLoopAux_succ_ok strategy oracle idx solved r fuel _ _ (hok idx),
      shouldStopAfter_rating_eq strategy hmode]
    have hdec : decide (strategy.targetRating > 0
        ∧ ratings idx ≥ strategy.targetRating) = false := by
      rw [decide_eq_false_iff_not]
      rintro ⟨hpos, -⟩
      omega
    rw [hdec]
    simp only [Bool.false_eq_true, if_false]
    rw [ih (idx + 1) (solved + 1) (ratings idx)]

/-- ASAP submit mode performs no inter-puzzle sleep in any loop exit. -/
lemma runLoop_asap_noSleep (strategy : Strategy) (oracle : Nat → SessionOutcome)
    (hasap : strategy.submitMode = SubmitModeASAP) :
    ∀ fuel idx solved r out,
      runLoopAux strategy oracle idx solved r fuel = some out → out.sleeps = [] := by
  intro fuel
  induction fuel with
  | zero => intro idx solved r out h; exact absurd h (by simp [runLoopAux])
  | succ fuel ih =>
    intro idx solved r out h
    rw [runLoopAux] at h
    cases hsess : oracle idx with
    | fetchFail msg => rw [hsess] at h; cases h; rfl
    | submitFail msg => rw [hsess] at h; cases h; rfl
    | ok rating t =>
      rw [hsess] at h
      simp only [] at h
      by_cases hstop : shouldStopAfter strategy (solved + 1) rating = true
      · rw [if_pos hstop] at h
        cases h
        rfl
      · rw [if_neg hstop] at h
        cases hrec : runLoopAux strategy oracle (idx + 1) (solved + 1) rating fuel with
        | none => rw [hrec] at h; cases h
        | some out' =>
          rw [hrec] at h
          cases h
          show (if strategy.submitMode ≠ SubmitModeASAP
              then [((ratTrunc t : Int) : ℚ)] else []) ++ out'.sleeps = []
          rw [if_neg (fun hne => hne hasap), ih _ _ _ _ hrec]
          rfl

/-- All-success oracles decompose through oracleRating and oracleTime. -/
lemma oracle_ok_decompose (oracle : Nat → SessionOutcome)
    (hok : ∀ n, ∃ rating t, oracle n = SessionOutcome.ok rating t) :
    ∀ n, oracle n = SessionOutcome.ok (oracleRating oracle n) (oracleTime oracle n) := by
  intro n
  obtain ⟨rating, t, hn⟩ := hok n
  simp [oracleRating, oracleTime, hn]

/-- Unfolding of processAccount when the strategy resolves and the
cooldown gate does not fire. -/
lemma processAccount_run (now : Int) (account : Account)
    (strategies : List (String × Strategy)) (oracle : Nat → SessionOutcome)
    (fuel : Nat) (strategy : Strategy)
    (hs : lookupStrategy strategies account.strategyName = some strategy)
    (hcd : onCooldown now account = false) :
    processAccount now account strategies oracle fuel =
      match runLoopAux strategy oracle 0 0 0 fuel with
      | none => none
      | some out =>
          some ((if strategy.puzzlesPerDay > 0 ∧ out.finalError = none then
              { account with lastRun := now } else account),
            { accountUsername := account.username, puzzlesSolved := out.solvedCount,
              strategy := some strategy, error := out.finalError },
            RemoteCall.getStats ::
              (out.calls ++ [RemoteCall.getStats, RemoteCall.webhook])) := by
  unfold processAccount
  rw [hs, hcd]
  simp only [Bool.false_eq_true, if_false]

/-- Unfolding of processAccount when the strategy resolves and the
cooldown gate fires. -/
lemma processAccount_cooldown_eq (now : Int) (account : Account)
    (strategies : List (String × Strategy)) (oracle : Nat → SessionOutcome)
    (fuel : Nat) (strategy : Strategy)
    (hs : lookupStrategy strategies account.strategyName = some strategy)
    (hcd : onCooldown now account = true) :
    processAccount now account strategies oracle fuel =
      some (account,
        { accountUsername := account.username, puzzlesSolved := 0,
          strategy := some strategy, error := some (cooldownMsg account.lastRun) },
        [RemoteCall.getStats, RemoteCall.getStats, RemoteCall.webhook]) := by
  unfold processAccount
  rw [hs, hcd]
  simp only [if_true]

/-- Unfolding of processAccount when the strategy does not resolve. -/
lemma processAccount_notFound (now : Int) (account : Account)
    (strategies : List (String × Strategy)) (oracle : Nat → SessionOutcome)
    (fuel : Nat)
    (hs : lookupStrategy strategies account.strategyName = none) :
    processAccount now account strategies oracle fuel =
      some (account,
        { accountUsername := account.username, puzzlesSolved := 0,
          strategy := none, error := some (strategyNotFoundMsg account.strategyName) },
        []) := by
  unfold processAccount
  rw [hs]

/-- C2: in stop-by-puzzle-count mode with count target C > 0, a run of
the per-account loop in which every puzzle session succeeds terminates
after exactly C sessions (with fuel for fewer than C sessions the loop
has not yet exited, and the exiting run performs exactly C puzzle
fetches), ends with no error, and the resulting ProcessResult reports
PuzzlesSolved = C. -/
theorem stopByCount_runsExactlyTarget (strategy : Strategy) (C : Nat)
    (oracle : Nat → SessionOutcome)
    (hmode : strategy.stopMode = StopModePuzzles)
    (hC : strategy.puzzlesPerDay = (C : Int)) (hpos : 0 < C)
    (hok : ∀ n, ∃ rating t, oracle n = SessionOutcome.ok rating t) :
    (∃ out, runLoopAux strategy oracle 0 0 0 C = some out ∧
        out.solvedCount = C ∧ out.finalError = none ∧
        out.calls.count RemoteCall.fetchPuzzle = C) ∧
    (∀ fuel, fuel < C → runLoopAux strategy oracle 0 0 0 fuel = none) ∧
    (∀ (now : Int) (account : Account) (strategies : List (String × Strategy)),
        lookupStrategy strategies account.strategyName = some strategy →
        onCooldown now account = false →
        ∃ account' res tr,
          processAccount now account strategies oracle C = some (account', res, tr) ∧
          res.puzzlesSolved = C ∧ res.error = none) := by
  have hok' := oracle_ok_decompose oracle hok
  obtain ⟨out, hout, hcount, herr, hfetch, -⟩ :=
    runLoop_puzzles_main strategy oracle _ _ hmode C hC hok' C 0 0 0 hpos (by omega)
  refine ⟨⟨out, hout, hcount, herr, by simpa using hfetch⟩, ?_, ?_⟩
  · intro fuel hfuel
    exact runLoop_puzzles_needsFuel strategy oracle _ _ hmode C hC hok' fuel 0 0 0
      (by omega)
  · intro now account strategies hs hcd
    rw [processAccount_run now account strategies oracle C strategy hs hcd, hout]
    exact ⟨_, _, _, rfl, hcount, herr⟩

/-- Witness for C2 at a concrete strategy, target 2, and an always-ok
oracle: with fuel for only one session the loop has not exited. -/
theorem stopByCount_runsExactlyTarget_witness :
    runLoopAux ⟨"w2", StopModePuzzles, 2, 0, TimeModeLegit, SubmitModeASAP⟩
      (fun _ => SessionOutcome.ok 5 3) 0 0 0 1 = none :=
  (stopByCount_runsExactlyTarget _ 2 _ rfl rfl (by decide)
    (fun _ => ⟨5, 3, rfl⟩)).2.1 1 (by decide)

/-- C3: in stop-by-target-rating mode with target R > 0 and every session
succeeding, the loop stops exactly at the first session whose returned
rating reaches R (running that many puzzle fetches and no more), with no
error; with target R ≤ 0 the rating predicate never stops the loop, so an
all-success run never exits. -/
theorem stopByRating_stopsAtFirstThreshold (strategy : Strategy)
    (oracle : Nat → SessionOutcome) (ratings : Nat → Int) (times : Nat → ℚ)
    (hmode : strategy.stopMode = StopModeRating)
    (hok : ∀ n, oracle n = SessionOutcome.ok (ratings n) (times n)) :
    (∀ k, strategy.targetRating > 0 →
        (∀ i, i < k → ratings i < strategy.targetRating) →
        strategy.targetRating ≤ ratings k →
        ∀ fuel, k + 1 ≤ fuel →
        ∃ out, runLoopAux strategy oracle 0 0 0 fuel = some out ∧
          out.solvedCount = k + 1 ∧ out.finalError = none ∧
          out.calls.count RemoteCall.fetchPuzzle = k + 1) ∧
    (strategy.targetRating ≤ 0 →
        ∀ fuel idx solved r, runLoopAux strategy oracle idx solved r fuel = none) := by
  constructor
  · intro k hR hbelow hhit fuel hfuel
    have h := runLoop_rating_stop strategy oracle ratings times hmode hok hR k 0 0 0 fuel
      (fun i hi => by simpa using hbelow i hi) (by simpa using hhit) hfuel
    simpa using h
  · intro hR fuel idx solved r
    exact runLoop_rating_noStop strategy oracle ratings times hmode hok hR fuel idx solved r

/-- Witness for C3 at a concrete rating-mode strategy with target 0 and an
always-ok oracle: the loop never exits via the rating predicate. -/
theorem stopByRating_stopsAtFirstThreshold_witness :
    runLoopAux ⟨"w3", StopModeRating, 0, 0, TimeModeLegit, SubmitModeASAP⟩
      (fun _ => SessionOutcome.ok 20 3) 0 0 0 5 = none :=
  (stopByRating_stopsAtFirstThreshold _ _ (fun _ => 20) (fun _ => 3) rfl
    (fun _ => rfl)).2 (by decide) 5 0 0 0


/-- C4 counterexample: at a concrete non-premium account whose last run
was one hour before now, the run is cooldown-blocked yet still issues
remote requests (the two tactics-stats lookups and the completion
webhook), so the claim's "zero remote requests are issued" clause is
false at this input. -/
theorem cooldownGate_counterexample :
    processAccount 86400 acctGate [("s1", stratGate)]
        (fun _ => SessionOutcome.ok 100 20) 5
      = some (acctGate,
          ⟨"bob", 0, some stratGate, some (cooldownMsg 82800)⟩,
          [RemoteCall.getStats, RemoteCall.getStats, RemoteCall.webhook]) ∧
    ([RemoteCall.getStats, RemoteCall.getStats, RemoteCall.webhook] : List RemoteCall)
      ≠ [] :=
  ⟨by decide, by decide⟩

/-- C4 (amended): a non-premium account with a non-zero last-run
timestamp less than 24 h old is blocked with the cooldown error before
any puzzle session — its trace holds no puzzle fetch and no solution
submission and zero puzzles are solved, though the surrounding
tactics-stats lookups and the completion webhook are still issued — and
an account with the premium flag set is never blocked by the cooldown
gate. -/
theorem cooldownGate_blocksSessionsOnly (now : Int) (account : Account)
    (strategies : List (String × Strategy)) (oracle : Nat → SessionOutcome)
    (fuel : Nat) (strategy : Strategy)
    (hs : lookupStrategy strategies account.strategyName = some strategy) :
    (account.isPremium = false → account.lastRun ≠ 0 →
      now - account.lastRun < cooldownSeconds →
      processAccount now account strategies oracle fuel
        = some (account,
            { accountUsername := account.username, puzzlesSolved := 0,
              strategy := some strategy, error := some (cooldownMsg account.lastRun) },
            [RemoteCall.getStats, RemoteCall.getStats, RemoteCall.webhook]) ∧
      RemoteCall.fetchPuzzle
        ∉ ([RemoteCall.getStats, RemoteCall.getStats, RemoteCall.webhook] : List RemoteCall) ∧
      RemoteCall.submitSol
        ∉ ([RemoteCall.getStats, RemoteCall.getStats, RemoteCall.webhook] : List RemoteCall)) ∧
    (account.isPremium = true → onCooldown now account = false) := by
  constructor
  · intro hprem hnz hrecent
    have hcd : onCooldown now account = true := by
      simp [onCooldown, hprem, hnz, hrecent]
    exact ⟨processAccount_cooldown_eq now account strategies oracle fuel strategy hs hcd,
      by decide, by decide⟩
  · intro hprem
    simp [onCooldown, hprem]

/-- Witness for C4 (amended) at the concrete blocked account and at a
concrete premium account. -/
theorem cooldownGate_blocksSessionsOnly_witness :
    (processAccount 86400 acctGate [("s1", stratGate)]
        (fun _ => SessionOutcome.ok 100 20) 5
      = some (acctGate,
          { accountUsername := "bob", puzzlesSolved := 0,
            strategy := some stratGate, error := some (cooldownMsg 82800) },
          [RemoteCall.getStats, RemoteCall.getStats, RemoteCall.webhook]) ∧
      RemoteCall.fetchPuzzle
        ∉ ([RemoteCall.getStats, RemoteCall.getStats, RemoteCall.webhook] : List RemoteCall) ∧
      RemoteCall.submitSol
        ∉ ([RemoteCall.getStats, RemoteCall.getStats, RemoteCall.webhook] : List RemoteCall)) ∧
    onCooldown 86400 acctPremium = false :=
  ⟨(cooldownGate_blocksSessionsOnly 86400 acctGate [("s1", stratGate)]
      (fun _ => SessionOutcome.ok 100 20) 5 stratGate rfl).1 rfl (by decide) (by decide),
    (cooldownGate_blocksSessionsOnly 86400 acctPremium [("s1", stratGate)]
      (fun _ => SessionOutcome.ok 100 20) 5 stratGate rfl).2 rfl⟩

/-- C5: a terminating processAccount run updates the account's LastRun to
now exactly when the resolved strategy's puzzle-count target is positive
and the final error is nil; in every other case — cooldown block,
strategy-not-found, session error, or a count target of 0 — LastRun (and
for the not-found case the whole account) is left unchanged. -/
theorem lastRunUpdatedIffCountTargetAndNoError (now : Int) (account : Account)
    (strategies : List (String × Strategy)) (oracle : Nat → SessionOutcome) (fuel : Nat)
    (account' : Account) (res : ProcessResult) (tr : List RemoteCall)
    (h : processAccount now account strategies oracle fuel = some (account', res, tr)) :
    (∀ strategy, lookupStrategy strategies account.strategyName = some strategy →
        account'.lastRun
          = if strategy.puzzlesPerDay > 0 ∧ res.error = none then now
            else account.lastRun) ∧
    (lookupStrategy strategies account.strategyName = none → account' = account) := by
  constructor
  · intro strategy hs
    by_cases hcd : onCooldown now account = true
    · rw [processAccount_cooldown_eq now account strategies oracle fuel strategy hs hcd] at h
      simp only [Option.some.injEq, Prod.mk.injEq] at h
      obtain ⟨ha, hres, -⟩ := h
      subst ha
      rw [if_neg]
      rintro ⟨-, he⟩
      rw [← hres] at he
      simp at he
    · have hcd' : onCooldown now account = false := by
        cases hx : onCooldown now account
        · rfl
        · exact absurd hx hcd
      rw [processAccount_run now account strategies oracle fuel strategy hs hcd'] at h
      cases hloop : runLoopAux strategy oracle 0 0 0 fuel with
      | none => rw [hloop] at h; cases h
      | some out =>
        rw [hloop] at h
        simp only [Option.some.injEq, Prod.mk.injEq] at h
        obtain ⟨ha, hres, -⟩ := h
        subst hres
        rw [← ha]
        show (if strategy.puzzlesPerDay > 0 ∧ out.finalError = none then
            { account with lastRun := now } else account).lastRun
          = if strategy.puzzlesPerDay > 0 ∧ out.finalError = none then now
            else account.lastRun
        by_cases hcond : strategy.puzzlesPerDay > 0 ∧ out.finalError = none
        · rw [if_pos hcond, if_pos hcond]
        · rw [if_neg hcond, if_neg hcond]
  · intro hs
    rw [processAccount_notFound now account strategies oracle fuel hs] at h
    simp only [Option.some.injEq, Prod.mk.injEq] at h
    exact h.1.symm

/-- Witness for C5 at a concrete successful run with count target 1:
the returned account's LastRun equals now through the update condition. -/
theorem lastRunUpdatedIffCountTargetAndNoError_witness :
    ({ acctFresh with lastRun := 1000 } : Account).lastRun
      = if stratDefault.puzzlesPerDay > 0 ∧ (none : Option String) = none then 1000
        else acctFresh.lastRun :=
  (lastRunUpdatedIffCountTargetAndNoError 1000 acctFresh [("default", stratDefault)]
    (fun _ => SessionOutcome.ok 1200 20) 1
    { acctFresh with lastRun := 1000 }
    ⟨"alice", 1, some stratDefault, none⟩
    [RemoteCall.getStats, RemoteCall.getStats, RemoteCall.fetchPuzzle,
      RemoteCall.submitSol, RemoteCall.getStats, RemoteCall.webhook]
    (by decide)).1 stratDefault rfl

/-- C6: the attempt-duration draw of submitSolution lies in [15, 45) for
time mode "legit", in [3600, 5400) for "hour", in [1/10, 2/5) for "zero",
and equals 15 for every unrecognized time mode, whenever the random draw
u lies in [0, 1). -/
theorem attemptDuration_bounds (u : ℚ) (h0 : 0 ≤ u) (h1 : u < 1) :
    (15 ≤ attemptDuration TimeModeLegit u ∧ attemptDuration TimeModeLegit u < 45) ∧
    (3600 ≤ attemptDuration TimeModeHour u ∧ attemptDuration TimeModeHour u < 5400) ∧
    (1 / 10 ≤ attemptDuration TimeModeZero u ∧ attemptDuration TimeModeZero u < 2 / 5) ∧
    (∀ mode : String, mode ≠ TimeModeHour → mode ≠ TimeModeLegit → mode ≠ TimeModeZero →
      attemptDuration mode u = 15) := by
  have hLegit : attemptDuration TimeModeLegit u = 15 + u * 30 := by
    have e1 : (TimeModeLegit == TimeModeHour) = false := by decide
    have e2 : (TimeModeLegit == TimeModeLegit) = true := by decide
    simp [attemptDuration, e1, e2]
  have hHour : attemptDuration TimeModeHour u = 3600 + u * 1800 := by
    have e1 : (TimeModeHour == TimeModeHour) = true := by decide
    simp [attemptDuration, e1]
  have hZero : attemptDuration TimeModeZero u = 1 / 10 + u * (3 / 10) := by
    have e1 : (TimeModeZero == TimeModeHour) = false := by decide
    have e2 : (TimeModeZero == TimeModeLegit) = false := by decide
    have e3 : (TimeModeZero == TimeModeZero) = true := by decide
    simp [attemptDuration, e1, e2, e3]
  refine ⟨⟨?_, ?_⟩, ⟨?_, ?_⟩, ⟨?_, ?_⟩, ?_⟩
  · rw [hLegit]; nlinarith
  · rw [hLegit]; nlinarith
  · rw [hHour]; nlinarith
  · rw [hHour]; nlinarith
  · rw [hZero]; nlinarith
  · rw [hZero]; nlinarith
  · intro mode hmh hml hmz
    have e1 : (mode == TimeModeHour) = false := beq_eq_false_iff_ne.mpr hmh
    have e2 : (mode == TimeModeLegit) = false := beq_eq_false_iff_ne.mpr hml
    have e3 : (mode == TimeModeZero) = false := beq_eq_false_iff_ne.mpr hmz
    simp [attemptDuration, e1, e2, e3]

/-- Witness for C6 at the concrete draw u = 1/2: the hour-mode duration
lies in [3600, 5400). -/
theorem attemptDuration_bounds_witness :
    3600 ≤ attemptDuration TimeModeHour (mkRat 1 2)
      ∧ attemptDuration TimeModeHour (mkRat 1 2) < 5400 :=
  (attemptDuration_bounds (mkRat 1 2) (by decide) (by decide)).2.1



/-- C7 counterexample: with a paced strategy and a first session whose
reported time is the fractional 31/2 s (15.5 s), the loop's one
inter-puzzle sleep is 15 s — the truncation — not the reported 15.5 s,
so the claim that the sleep equals the reported time-taken value is
false at this input. -/
theorem pacedSleep_counterexample :
    oracleHalf 0 = SessionOutcome.ok 100 (mkRat 31 2) ∧
    (runLoopAux stratPaced oracleHalf 0 0 0 2).map LoopOut.sleeps = some [(15 : ℚ)] ∧
    (15 : ℚ) ≠ mkRat 31 2 :=
  ⟨rfl, by decide, by decide⟩

/-- C7 (amended): with submit mode "asap" no inter-puzzle sleep ever
occurs in any loop exit; otherwise (paced), in an all-success
puzzle-count run with target C the loop sleeps once after each of the
first C - 1 sessions, each sleep lasting the whole-second truncation of
that session's reported time-taken value. -/
theorem pacedSleep_truncatedReportedSeconds :
    (∀ (strategy : Strategy) (oracle : Nat → SessionOutcome) (idx solved : Nat)
        (r : Int) (fuel : Nat) (out : LoopOut),
        strategy.submitMode = SubmitModeASAP →
        runLoopAux strategy oracle idx solved r fuel = some out → out.sleeps = []) ∧
    (∀ (strategy : Strategy) (oracle : Nat → SessionOutcome) (ratings : Nat → Int)
        (times : Nat → ℚ) (C : Nat),
        strategy.stopMode = StopModePuzzles → strategy.puzzlesPerDay = (C : Int) →
        0 < C → strategy.submitMode ≠ SubmitModeASAP →
        (∀ n, oracle n = SessionOutcome.ok (ratings n) (times n)) →
        ∃ out, runLoopAux strategy oracle 0 0 0 C = some out ∧
          out.sleeps = (List.range (C - 1)).map
            (fun n => ((ratTrunc (times n) : Int) : ℚ))) := by
  constructor
  · intro strategy oracle idx solved r fuel out hasap hrun
    exact runLoop_asap_noSleep strategy oracle hasap fuel idx solved r out hrun
  · intro strategy oracle ratings times C hmode hC hpos hpaced hok
    obtain ⟨out, hout, -, -, -, hsleeps⟩ :=
      runLoop_puzzles_main strategy oracle ratings times hmode C hC hok C 0 0 0 hpos
        (by omega)
    refine ⟨out, hout, ?_⟩
    rw [hsleeps, if_neg hpaced]
    simp

/-- Witness for C7 (amended) at a concrete asap strategy: the loop exit
carries no sleeps. -/
theorem pacedSleep_truncatedReportedSeconds_witness :
    LoopOut.sleeps ⟨2, 5, none,
      [RemoteCall.getStats, RemoteCall.fetchPuzzle, RemoteCall.submitSol,
        RemoteCall.getStats, RemoteCall.fetchPuzzle, RemoteCall.submitSol], []⟩ = [] :=
  (pacedSleep_truncatedReportedSeconds).1
    ⟨"w7", StopModePuzzles, 2, 0, TimeModeLegit, SubmitModeASAP⟩
    (fun _ => SessionOutcome.ok 5 3) 0 0 0 2
    ⟨2, 5, none,
      [RemoteCall.getStats, RemoteCall.fetchPuzzle, RemoteCall.submitSol,
        RemoteCall.getStats, RemoteCall.fetchPuzzle, RemoteCall.submitSol], []⟩
    rfl (by decide)

/-- Partition shape of the aggregation fold, for any starting buckets. -/
lemma aggregateAux_partition : ∀ (rs : List ProcessResult) (s c e : List String),
    aggregateAux rs (s, c, e)
      = (s ++ (rs.filter (fun r => isSuccessRes r)).map successEntry,
         c ++ (rs.filter (fun r => isCooldownRes r)).map (fun r => r.accountUsername),
         e ++ (rs.filter (fun r => isHardErrorRes r)).map (fun r => r.accountUsername)) := by
  intro rs
  induction rs with
  | nil => intro s c e; simp [aggregateAux]
  | cons r rs ih =>
    intro s c e
    cases herr : r.error with
    | none =>
      have h1 : isSuccessRes r = true := by simp [isSuccessRes, herr]
      have h2 : isCooldownRes r = false := by simp [isCooldownRes, herr]
      have h3 : isHardErrorRes r = false := by simp [isHardErrorRes, herr]
      simp [aggregateAux, herr, ih, h1, h2, h3, List.filter_cons]
    | some msg =>
      cases hcool : strContainsSub msg ("cooldown") with
      | true =>
        have h1 : isSuccessRes r = false := by simp [isSuccessRes, herr]
        have h2 : isCooldownRes r = true := by simp [isCooldownRes, herr, hcool]
        have h3 : isHardErrorRes r = false := by simp [isHardErrorRes, herr, hcool]
        simp [aggregateAux, herr, hcool, ih, h1, h2, h3, List.filter_cons]
      | false =>
        have h1 : isSuccessRes r = false := by simp [isSuccessRes, herr]
        have h2 : isCooldownRes r = false := by simp [isCooldownRes, herr, hcool]
        have h3 : isHardErrorRes r = true := by simp [isHardErrorRes, herr, hcool]
        simp [aggregateAux, herr, hcool, ih, h1, h2, h3, List.filter_cons]

/-- C8: runSolver's aggregation sends every nil-error result to the
success bucket, every result whose error text contains "cooldown" to the
cooldown bucket, and every other erroring result to the hard-error
bucket; the three classifications cover every result and are pairwise
disjoint (each result satisfies exactly one of them), so in particular a
cooldown-classified result is never in the hard-error bucket. -/
theorem aggregation_threeBuckets :
    (∀ rs : List ProcessResult, aggregateResults rs
        = ((rs.filter (fun r => isSuccessRes r)).map successEntry,
           (rs.filter (fun r => isCooldownRes r)).map (fun r => r.accountUsername),
           (rs.filter (fun r => isHardErrorRes r)).map (fun r => r.accountUsername))) ∧
    (∀ r : ProcessResult,
        (isSuccessRes r).toNat + (isCooldownRes r).toNat + (isHardErrorRes r).toNat
          = 1) := by
  constructor
  · intro rs
    have h := aggregateAux_partition rs [] [] []
    simpa [aggregateResults] using h
  · intro r
    cases herr : r.error with
    | none => simp [isSuccessRes, isCooldownRes, isHardErrorRes, herr]
    | some msg =>
      cases hcool : strContainsSub msg ("cooldown") <;>
        simp [isSuccessRes, isCooldownRes, isHardErrorRes, herr, hcool]

/-- Dropping the first occurrence of a key that occurs at most once
removes it entirely. -/
lemma removeKeyOnce_not_mem (key : String) :
    ∀ l : List String, l.count key ≤ 1 → key ∉ removeKeyOnce l key := by
  intro l
  induction l with
  | nil => intro _ h; simp [removeKeyOnce] at h
  | cons k rest ih =>
    intro hcount
    rw [removeKeyOnce]
    rw [List.count_cons] at hcount
    by_cases hk : (k == key) = true
    · rw [if_pos hk]
      rw [hk] at hcount
      simp at hcount
      exact List.count_eq_zero.mp (by omega)
    · have hk' : (k == key) = false := by
        cases hx : k == key
        · rfl
        · exact absurd hx hk
      rw [if_neg (by rw [hk']; exact Bool.false_ne_true)]
      rw [hk'] at hcount
      simp at hcount
      rw [List.mem_cons]
      rintro (hkey | hmem)
      · exact absurd (beq_iff_eq.mpr hkey.symm) (by rw [hk']; exact Bool.false_ne_true)
      · exact absurd hmem (ih (by omega))

/-- C9: the logger's rendered order lists keys in first-insertion order —
updating an existing key leaves the ordered keys unchanged while a fresh
key is appended at the end — RemoveLine deletes the key from the ordered
keys (for any state where the key occurs at most once), and concretely
adding "a" then "b" and removing "a" renders exactly the line of "b". -/
theorem statusLines_orderAndRemoval :
    (∀ (l : Logger) (key value : String), lookupLine l.persistentLines key ≠ none →
        (l.addLine key value).orderedKeys = l.orderedKeys) ∧
    (∀ (l : Logger) (key value : String), lookupLine l.persistentLines key = none →
        (l.addLine key value).orderedKeys = l.orderedKeys ++ [key]) ∧
    (∀ (l : Logger) (key : String), l.orderedKeys.count key ≤ 1 →
        key ∉ (l.removeLine key).orderedKeys) ∧
    ((((Logger.new.addLine ("a") ("va")).addLine ("b") ("vb")).removeLine ("a")).render
      = ["vb"]) := by
  refine ⟨?_, ?_, ?_, by decide⟩
  · intro l key value h
    cases hx : lookupLine l.persistentLines key with
    | none => exact absurd hx h
    | some v => simp [Logger.addLine, hx]
  · intro l key value h
    simp [Logger.addLine, h]
  · intro l key h
    exact removeKeyOnce_not_mem key l.orderedKeys h

/-- Witness for C9 at concrete logger states. -/
theorem statusLines_orderAndRemoval_witness :
    ((⟨[("a", "x")], ["a"]⟩ : Logger).addLine ("a") ("y")).orderedKeys = ["a"] ∧
    ((⟨[("a", "x")], ["a"]⟩ : Logger).addLine ("b") ("y")).orderedKeys = ["a", "b"] ∧
    ("a") ∉ ((⟨[("a", "x")], ["a"]⟩ : Logger).removeLine ("a")).orderedKeys :=
  ⟨statusLines_orderAndRemoval.1 ⟨[("a", "x")], ["a"]⟩ ("a") ("y") (by decide),
    statusLines_orderAndRemoval.2.1 ⟨[("a", "x")], ["a"]⟩ ("b") ("y") (by decide),
    statusLines_orderAndRemoval.2.2.1 ⟨[("a", "x")], ["a"]⟩ ("a") (by decide)⟩

/-- C10: an account whose LastRun is the zero time value is never blocked
by the cooldown gate, whatever now and its premium flag are. -/
theorem freshAccountNeverGated (now : Int) (account : Account)
    (h : account.lastRun = 0) : onCooldown now account = false := by
  simp [onCooldown, h]

/-- Witness for C10 at a concrete fresh non-premium account. -/
theorem freshAccountNeverGated_witness :
    onCooldown 500 acctFresh = false :=
  freshAccountNeverGated 500 acctFresh rfl

/-- C1: at a concrete one-account store whose run succeeds and updates
the worker copy's LastRun to now = 1000, runSolver persists the store
unchanged (the worker's final account value is never written back into
the store map before saveDatabase), so the persisted entry keeps
LastRun = 0 while the account's own final state has LastRun = 1000. -/
theorem persistedStoreMissesWorkerState :
    runSolver 1000 [("alice", acctFresh)] [("default", stratDefault)]
        (fun _ _ => SessionOutcome.ok 1200 20) 1
      = some ([("alice", acctFresh)], [⟨"alice", 1, some stratDefault, none⟩]) ∧
    finalWorkerCopies 1000 [("alice", acctFresh)] [("default", stratDefault)]
        (fun _ _ => SessionOutcome.ok 1200 20) 1
      = some [("alice", { acctFresh with lastRun := 1000 })] ∧
    acctFresh.lastRun = 0 ∧ ((0 : Int) ≠ 1000) :=
  ⟨by decide, by decide, rfl, by decide⟩


end Chesshook
